import Mathlib

/-!
Shallow embedding of `src/lib/ansible/modules/network/f5/bigip_device_license.py`
(the BIG-IP device-license Ansible module): the license-negotiation loop
(`ModuleManager.generate_license_from_remote`), the request envelope
(`ModuleParameters.license_envelope`), the convergence controller
(`ModuleManager.present` / `ModuleManager.absent` / `ModuleManager.create` /
`ModuleManager.remove`), the mcpd stability-polling loop
(`ModuleManager.wait_for_mcpd`), the shell escaping used by the heredoc
upload commands, and the idempotent-delete removal helpers.

The XML parser (`LicenseXmlParser`) wraps Python's ElementTree; its effect on
the negotiation loop is modelled by classifying each raw authority response
into the outcome the loop's `try`/`except` structure distinguishes:
a transport error on POST, an `F5ModuleError` raised because the payload is
not well-formed XML (`LicenseXmlParser.__init__`), any other parse failure,
or a successfully parsed result record (the dict `LicenseXmlParser.json()`
returns, whose fields are already null-coalesced).

Device interactions (registration-key reads, dossier generation, file
writes, removals, reloads, mcpd readiness probes) are modelled by an
explicit environment of device answers plus a log of gateway operations.
-/

namespace BigipDeviceLicense

/-- `F5ModuleError(msg)`: the module's error type.  The message may be
`None` (the negotiation loop raises `F5ModuleError(result['fault_text'])`
and `fault_text` can be `None`). -/
structure F5ModuleError where
  msg : Option String
deriving DecidableEq

/-- The dict returned by `LicenseXmlParser.json()`: every field is
null-coalesced (`eula=self.eula or None`, etc.), so each is `Option`. -/
structure LicenseResult where
  eula : Option String
  license : Option String
  state : Option String
  fault_number : Option Int
  fault_text : Option String
deriving DecidableEq

/-- What one attempt of the negotiation loop observes, following the
`try`/`except` structure of `generate_license_from_remote`:
* `transportError` — `mgmt.post` raised (`except Exception: continue`);
* `invalidXml msg` — the response body is not well-formed XML, so
  `LicenseXmlParser.__init__` raised `F5ModuleError` with the ElementTree
  message `msg` (`except F5ModuleError: raise`);
* `parseFailure` — any other exception while parsing/normalising
  (`except Exception: continue`);
* `parsed r` — `LicenseXmlParser(...).json()` returned the record `r`. -/
inductive AuthorityResponse where
  | transportError
  | invalidXml (msg : String)
  | parseFailure
  | parsed (r : LicenseResult)
deriving DecidableEq

/-- The module parameters (`ModuleParameters`): the desired-state request.
Unset Ansible parameters are `None`, hence `Option String`;
`license_server` defaults to `activate.f5.com` and `accept_eula` to `no`
(see `ArgumentSpec`). -/
structure ModuleParameters where
  license_key : Option String := none
  license_server : String := "activate.f5.com"
  accept_eula : Bool := false
  dossier : Option String := none
  eula : Option String := none
  email : Option String := none
  first_name : Option String := none
  last_name : Option String := none
  company : Option String := none
  phone : Option String := none
  job_title : Option String := none
  address : Option String := none
  city : Option String := none
  state : Option String := none
  postal_code : Option String := none
  country : Option String := none

/-- Python `x or ''` on an optional string (used by
`ModuleParameters.license_options`): `None` and `''` both give `''`. -/
def orEmpty (x : Option String) : String := x.getD ""

/-- How `str.format` renders an optional string positionally: `None`
renders as the text `None` (the dossier slot `{1}` is filled with
`self.dossier`, which is a plain parameter, not `or ''`-coalesced). -/
def strOfPy (x : Option String) : String :=
  match x with
  | none => "None"
  | some s => s

/-! The fixed XML template of `ModuleParameters.license_envelope`, split at
its `str.format` substitution slots (`{0}` = license_server,
`{1}` = dossier, then the eleven `license_options` fields).  Each literal
below is the exact text between two slots of the Python source's
triple-quoted string. -/

def envA : String :=
  "<?xml version=\"1.0\" encoding=\"UTF-8\"?>\n        <SOAP-ENV:Envelope xmlns:ns3=\"http://www.w3.org/2001/XMLSchema\"\n                           xmlns:SOAP-ENC=\"http://schemas.xmlsoap.org/soap/encoding/\"\n                           xmlns:ns0=\"http://schemas.xmlsoap.org/soap/encoding/\"\n                           xmlns:ns1=\"https://"

def envB : String :=
  "/license/services/urn:com.f5.license.v5b.ActivationService\"\n                           xmlns:ns2=\"http://schemas.xmlsoap.org/soap/envelope/\"\n                           xmlns:xsi=\"http://www.w3.org/2001/XMLSchema-instance\"\n                           xmlns:SOAP-ENV=\"http://schemas.xmlsoap.org/soap/envelope/\"\n                           SOAP-ENV:encodingStyle=\"http://schemas.xmlsoap.org/soap/encoding/\">\n          <SOAP-ENV:Header/>\n          <ns2:Body>\n            <ns1:getLicense>\n              <dossier xsi:type=\"ns3:string\">"

def envC : String :=
  "</dossier>\n              "

def eulaOpenTag : String := "<eula xsi:type=\"ns3:string\">"

def eulaCloseTag : String := "</eula>"

def envD : String :=
  "\n              <email xsi:type=\"ns3:string\">"

def envE : String :=
  "</email>\n              <firstName xsi:type=\"ns3:string\">"

def envF : String :=
  "</firstName>\n              <lastName xsi:type=\"ns3:string\">"

def envG : String :=
  "</lastName>\n              <companyName xsi:type=\"ns3:string\">"

def envH : String :=
  "</companyName>\n              <phone xsi:type=\"ns3:string\">"

def envI : String :=
  "</phone>\n              <jobTitle xsi:type=\"ns3:string\">"

def envJ : String :=
  "</jobTitle>\n              <address xsi:type=\"ns3:string\">"

def envK : String :=
  "</address>\n              <city xsi:type=\"ns3:string\">"

def envL : String :=
  "</city>\n              <stateProvince xsi:type=\"ns3:string\">"

def envM : String :=
  "</stateProvince>\n              <postalCode xsi:type=\"ns3:string\">"

def envN : String :=
  "</postalCode>\n              <country xsi:type=\"ns3:string\">"

def envO : String :=
  "</country>\n            </ns1:getLicense>\n          </ns2:Body>\n        </SOAP-ENV:Envelope>"

/-- `ModuleParameters.license_envelope`: the template with
`self.license_server` at `{0}`, `self.dossier` at `{1}` and the
`license_options` fields (each `x or ''`) at the named slots. -/
def license_envelope (p : ModuleParameters) : String :=
  envA ++ p.license_server ++ envB ++ strOfPy p.dossier ++ envC ++
    eulaOpenTag ++ orEmpty p.eula ++ eulaCloseTag ++ envD ++
    orEmpty p.email ++ envE ++ orEmpty p.first_name ++ envF ++
    orEmpty p.last_name ++ envG ++ orEmpty p.company ++ envH ++
    orEmpty p.phone ++ envI ++ orEmpty p.job_title ++ envJ ++
    orEmpty p.address ++ envK ++ orEmpty p.city ++ envL ++
    orEmpty p.state ++ envM ++ orEmpty p.postal_code ++ envN ++
    orEmpty p.country ++ envO

/-- An apostrophe, written by code point to keep string literals plain. -/
def squoteStr : String := String.singleton (Char.ofNat 39)

/-- The message of the `F5ModuleError` raised by `LicenseXmlParser.__init__`
on a payload that is not well-formed XML:
`"Provided XML payload is invalid. Received '{0}'.".format(str(ex))`. -/
def invalidXmlMsg (ex : String) : String :=
  "Provided XML payload is invalid. Received " ++ squoteStr ++ ex ++ squoteStr ++ "."

/-- `self.want.update({'eula': result['eula']})`: the in-place parameter
update performed on an `EULA_REQUIRED` outcome. -/
def setEula (p : ModuleParameters) (e : Option String) : ModuleParameters :=
  { p with eula := e }

/-- The loop body and result of `generate_license_from_remote`, with the
implicit state made explicit: `posts` is the envelope of every POST
performed, in order; `result` is `Except.error` when the Python raises,
`Except.ok none` when the `for x in range(0, 10)` loop falls through
(the function returns `None`), and `Except.ok (some r)` on
`LICENSE_RETURNED`.  `fuel` is the attempts remaining and `x` the attempt
index; `responses x` is what attempt `x` observes. -/
structure GenOutput where
  result : Except F5ModuleError (Option LicenseResult)
  posts : List String

def generateAux (responses : Nat → AuthorityResponse) :
    Nat → Nat → ModuleParameters → GenOutput
  | 0, _, _ => { result := Except.ok none, posts := [] }
  | fuel + 1, x, want =>
    let env := license_envelope want
    match responses x with
    | AuthorityResponse.transportError =>
        let g := generateAux responses fuel (x + 1) want
        { g with posts := env :: g.posts }
    | AuthorityResponse.invalidXml m =>
        { result := Except.error ⟨some (invalidXmlMsg m)⟩, posts := [env] }
    | AuthorityResponse.parseFailure =>
        let g := generateAux responses fuel (x + 1) want
        { g with posts := env :: g.posts }
    | AuthorityResponse.parsed r =>
        if r.state = some "EULA_REQUIRED" then
          let g := generateAux responses fuel (x + 1) (setEula want r.eula)
          { g with posts := env :: g.posts }
        else if r.state = some "LICENSE_RETURNED" then
          { result := Except.ok (some r), posts := [env] }
        else if r.state = some "EMAIL_REQUIRED" then
          { result := Except.error ⟨some "Email must be provided"⟩, posts := [env] }
        else if r.state = some "CONTACT_INFO_REQUIRED" then
          { result := Except.error ⟨some "Contact info must be provided"⟩, posts := [env] }
        else
          { result := Except.error ⟨r.fault_text⟩, posts := [env] }

/-- `ModuleManager.generate_license_from_remote`: up to 10 attempts,
starting at attempt index 0. -/
def generate_license_from_remote (want : ModuleParameters)
    (responses : Nat → AuthorityResponse) : GenOutput :=
  generateAux responses 10 0 want

/-! ## The mcpd stability-polling loop -/

/-- What one readiness probe of `_is_mcpd_ready_on_device` observes on the
device: the `tmsh show sys mcp-state | grep running` command returned an
object (which has a `commandResult` attribute or not), or raised. -/
inductive CheckOutcome where
  | result (hasCommandResult : Bool)
  | raised
deriving DecidableEq

/-- `ModuleManager._is_mcpd_ready_on_device`: `True` exactly when the
command returned an object with a `commandResult` attribute; every
exception is swallowed and yields `False`. -/
def is_mcpd_ready_on_device : CheckOutcome → Bool
  | CheckOutcome.result b => b
  | CheckOutcome.raised => false

/-- One step of `wait_for_mcpd`'s loop body on the counter `nops`:
`if ready: nops += 1 else: nops = 0`. -/
def mcpdStep (nops : Nat) (c : CheckOutcome) : Nat :=
  if is_mcpd_ready_on_device c then nops + 1 else 0

/-- The counter after consuming a list of probe outcomes from `nops`. -/
def nopsAfter (nops : Nat) (cs : List CheckOutcome) : Nat :=
  cs.foldl mcpdStep nops

/-- `ModuleManager.wait_for_mcpd`'s `while nops < 4` loop, with the
device's successive probe outcomes supplied as a list: returns the number
of readiness checks performed before the counter reached 4, or `none`
when the supplied outcomes run out first (the Python loop would still be
running).  The warm-up and inter-check sleeps carry no data. -/
def wait_for_mcpd : List CheckOutcome → Nat → Option Nat
  | [], nops => if nops < 4 then none else some 0
  | c :: rest, nops =>
      if nops < 4 then
        Option.map (· + 1) (wait_for_mcpd rest (mcpdStep nops c))
      else some 0

/-! ## Shell escaping and the heredoc upload commands -/

def dollarChar : Char := Char.ofNat 36
def dquoteChar : Char := Char.ofNat 34
def squoteChar : Char := Char.ofNat 39
def bslashChar : Char := Char.ofNat 92
def newlineChar : Char := Char.ofNat 10

/-- Membership in the character class of `self.escape_patterns`, the regex
`([$"'])` built in `ModuleManager.__init__`. -/
def inEscapeClass (c : Char) : Bool :=
  c == dollarChar || c == dquoteChar || c == squoteChar

/-- `re.sub(self.escape_patterns, r'\\\1', s)` character by character:
each `$`, `"` or `'` is replaced by itself preceded by a backslash. -/
def escapeChars : List Char → List Char
  | [] => []
  | c :: cs =>
      if inEscapeClass c then bslashChar :: c :: escapeChars cs
      else c :: escapeChars cs

def re_sub_escape (s : String) : String := String.mk (escapeChars s.data)

/-- `ModuleManager.upload_license_to_device`'s `utilCmdArgs` string:
`'-c "{0}"'.format('cat > /config/bigip.license <<EOF\n{payload}\nEOF')`. -/
def upload_license_command (licenseText : String) : String :=
  let command := "cat > /config/bigip.license <<EOF\n" ++ re_sub_escape licenseText ++ "\nEOF"
  "-c \"" ++ command ++ "\""

/-- `ModuleManager.upload_eula_to_device`'s `utilCmdArgs` string. -/
def upload_eula_command (eulaText : String) : String :=
  let command := "cat > /LICENSE.F5 <<EOF\n" ++ re_sub_escape eulaText ++ "\nEOF"
  "-c \"" ++ command ++ "\""

/-- The lines of a character list, splitting at every newline (what the
shell's heredoc reader sees line by line). -/
def splitLines : List Char → List (List Char)
  | [] => [[]]
  | c :: cs =>
      if c = newlineChar then [] :: splitLines cs
      else
        match splitLines cs with
        | [] => [[c]]
        | l :: ls => (c :: l) :: ls

/-- The heredoc terminator used by both upload commands. -/
def eofLine : List Char := ['E', 'O', 'F']

/-- A collision between the escaped payload and the heredoc terminator:
some line of the payload, as embedded in the command between `<<EOF` and
the final `EOF`, is exactly `EOF`, so the shell would end the heredoc
there instead of at the intended terminator. -/
def heredocCollision (content : String) : Bool :=
  (splitLines (escapeChars content.data)).contains eofLine

/-! ## Removal with the idempotent-delete policy -/

/-- What `tm.util.unix_rm.exec_cmd` does for one file: succeeds, or raises
`UtilError` with a message (`UtilError` is raised when a non-existent file
is mentioned, but also carries other failures). -/
inductive RmOutcome where
  | ok
  | utilError (msg : String)
deriving DecidableEq

/-- Whether `pat` occurs as a contiguous sublist of `l` (Python's
`pat in str(ex)`). -/
def matchesAt (pat : List Char) : List Char → Bool
  | [] => pat.isEmpty
  | c :: cs =>
      match pat with
      | [] => true
      | p :: ps => p == c && matchesAt ps cs

def occursIn (pat : List Char) : List Char → Bool
  | [] => pat.isEmpty
  | c :: cs => matchesAt pat (c :: cs) || occursIn pat cs

def notFoundText : String := "No such file or directory"

/-- `ModuleManager.remove_license_from_device`: `UtilError` containing
`'No such file or directory'` is success; any other `UtilError` becomes a
fatal `F5ModuleError` with the same message. -/
def remove_license_from_device (o : RmOutcome) : Except F5ModuleError Bool :=
  match o with
  | RmOutcome.ok => Except.ok true
  | RmOutcome.utilError m =>
      if occursIn notFoundText.data m.data then Except.ok true
      else Except.error ⟨some m⟩

/-- `ModuleManager.remove_eula_from_device`: same policy for `/LICENSE.F5`. -/
def remove_eula_from_device (o : RmOutcome) : Except F5ModuleError Bool :=
  match o with
  | RmOutcome.ok => Except.ok true
  | RmOutcome.utilError m =>
      if occursIn notFoundText.data m.data then Except.ok true
      else Except.error ⟨some m⟩

/-! ## Gateway operations and the convergence controller -/

/-- The gateway operations the controller performs on the appliance, in
order.  `postAuthority` is the HTTP POST to the activation authority (not
a device operation); the mutating device operations are the file writes,
the removals and the license reload. -/
inductive Op where
  | readRegKey
  | readDossier
  | postAuthority (envelope : String)
  | writeLicenseFile (cmd : String)
  | writeEulaFile (cmd : String)
  | reloadLicense
  | removeLicenseFile
  | removeEulaFile
  | mcpdCheck
deriving DecidableEq

/-- The device-mutating operations: file writes, removals, reload. -/
def isMutating : Op → Bool
  | Op.writeLicenseFile _ => true
  | Op.writeEulaFile _ => true
  | Op.reloadLicense => true
  | Op.removeLicenseFile => true
  | Op.removeEulaFile => true
  | _ => false

/-- The device answers an invocation runs against, plus check mode.
`regKey` is the registration key read before any change (`none` when the
device has none / the attribute is missing); `regKeyAfter` the key read by
the verification queries issued after install or removal plus reload;
`dossier` the `commandResult` of `get_dossier` (`none` when reading it
raised); `rmLicense`/`rmEula` the outcomes of the two `unix_rm` commands;
`mcpd` the successive readiness-probe outcomes. -/
structure DeviceEnv where
  check_mode : Bool := false
  regKey : Option String := none
  regKeyAfter : Option String := none
  dossier : Option String := none
  responses : Nat → AuthorityResponse := fun _ => AuthorityResponse.transportError
  rmLicense : RmOutcome := RmOutcome.ok
  rmEula : RmOutcome := RmOutcome.ok
  mcpd : List CheckOutcome := []

/-- Result of one `present`/`absent` run: the changed flag, a raised
`F5ModuleError`, or non-termination (the `wait_for_mcpd` loop never saw 4
consecutive positive probes in the supplied outcomes). -/
inductive RunResult where
  | done (changed : Bool)
  | failed (e : F5ModuleError)
  | nonterm

/-- `ModuleManager.exists`: the loaded `registrationKey` equals
`self.want.license_key` (a missing key or missing `license_key` compares
unequal; any exception yields `False`). -/
def license_exists (regKey : Option String) (want : ModuleParameters) : Bool :=
  match regKey, want.license_key with
  | some r, some k => r == k
  | _, _ => false

/-- `ModuleManager.any_license_exists`: `registrationKey is not None`. -/
def any_license_exists (regKey : Option String) : Bool := regKey.isSome

/-- The readiness checks `wait_for_mcpd` performs, as logged operations
(all the supplied outcomes are consumed when the loop does not finish). -/
def mcpdOps (sigs : List CheckOutcome) : List Op :=
  List.replicate
    (match wait_for_mcpd sigs 0 with
     | some n => n
     | none => sigs.length)
    Op.mcpdCheck

/-- `ModuleManager.remove_from_device`: license removal, then EULA
removal, then `reload_license` (which always returns `True`); a fatal
error from a removal propagates and stops the sequence.  The
`if not result` re-raises in the Python are unreachable because the
removal helpers only ever return `True`. -/
def remove_from_device (rmL rmE : RmOutcome) : Except F5ModuleError Unit × List Op :=
  match remove_license_from_device rmL with
  | Except.error e => (Except.error e, [Op.removeLicenseFile])
  | Except.ok r1 =>
      if r1 = false then
        (Except.error ⟨some "Failed to remove license from device."⟩, [Op.removeLicenseFile])
      else
        match remove_eula_from_device rmE with
        | Except.error e => (Except.error e, [Op.removeLicenseFile, Op.removeEulaFile])
        | Except.ok r2 =>
            if r2 = false then
              (Except.error ⟨some "Failed to remove EULA file from device."⟩,
                [Op.removeLicenseFile, Op.removeEulaFile])
            else
              (Except.ok (), [Op.removeLicenseFile, Op.removeEulaFile, Op.reloadLicense])

/-- `ModuleManager.create_on_device`: negotiate, fail when the loop
produced nothing, else upload the license text, the EULA text and reload
(the uploads always return `True`; Python would raise `TypeError` inside
`re.sub` if the returned record's `license`/`eula` field were `None`,
which no path proved here exercises — the text is taken as-is when
present). -/
def create_on_device (want : ModuleParameters)
    (responses : Nat → AuthorityResponse) : Except F5ModuleError Unit × List Op :=
  let g := generate_license_from_remote want responses
  let postOps := g.posts.map Op.postAuthority
  match g.result with
  | Except.error e => (Except.error e, postOps)
  | Except.ok none =>
      (Except.error ⟨some "Failed to generate license from F5 activation servers."⟩, postOps)
  | Except.ok (some license) =>
      (Except.ok (),
        postOps ++
          [Op.writeLicenseFile (upload_license_command (license.license.getD "")),
           Op.writeEulaFile (upload_eula_command (license.eula.getD "")),
           Op.reloadLicense])

/-- `ModuleManager.create`: `_set_changed_options` (pure bookkeeping),
the EULA-acceptance gate, check mode, dossier read (empty or missing
dossier is fatal), `create_on_device`, `wait_for_mcpd`, then the
verification read of the registration key. -/
def create (want : ModuleParameters) (env : DeviceEnv) : RunResult × List Op :=
  if want.accept_eula = false then
    (RunResult.failed ⟨some "You must read and accept the product EULA to license the box."⟩, [])
  else if env.check_mode then (RunResult.done true, [])
  else
    match env.dossier with
    | none => (RunResult.failed ⟨some "Dossier not generated."⟩, [Op.readDossier])
    | some d =>
        if d = "" then (RunResult.failed ⟨some "Dossier not generated."⟩, [Op.readDossier])
        else
          let want2 := { want with dossier := some d }
          match create_on_device want2 env.responses with
          | (Except.error e, ops) => (RunResult.failed e, Op.readDossier :: ops)
          | (Except.ok _, ops) =>
              let ops2 := Op.readDossier :: ops ++ mcpdOps env.mcpd
              match wait_for_mcpd env.mcpd 0 with
              | none => (RunResult.nonterm, ops2)
              | some _ =>
                  if license_exists env.regKeyAfter want2 then
                    (RunResult.done true, ops2 ++ [Op.readRegKey])
                  else
                    (RunResult.failed ⟨some "Failed to license the device."⟩,
                      ops2 ++ [Op.readRegKey])

/-- `ModuleManager.present`: unchanged when the wanted key is already
registered, else `create`. -/
def present (want : ModuleParameters) (env : DeviceEnv) : RunResult × List Op :=
  if license_exists env.regKey want then (RunResult.done false, [Op.readRegKey])
  else
    let c := create want env
    (c.1, Op.readRegKey :: c.2)

/-- `ModuleManager.remove`: check mode short-circuits, else
`remove_from_device` followed by the immediate existence re-check. -/
def remove (want : ModuleParameters) (env : DeviceEnv) : RunResult × List Op :=
  if env.check_mode then (RunResult.done true, [])
  else
    match remove_from_device env.rmLicense env.rmEula with
    | (Except.error e, ops) => (RunResult.failed e, ops)
    | (Except.ok _, ops) =>
        if license_exists env.regKeyAfter want then
          (RunResult.failed ⟨some "Failed to delete the resource."⟩, ops ++ [Op.readRegKey])
        else (RunResult.done true, ops ++ [Op.readRegKey])

/-- `ModuleManager.absent`: nothing to do when no registration key exists;
else `remove`, `wait_for_mcpd`, and the final absence verification. -/
def absent (want : ModuleParameters) (env : DeviceEnv) : RunResult × List Op :=
  if any_license_exists env.regKey then
    match remove want env with
    | (RunResult.done _, ops) =>
        let ops2 := Op.readRegKey :: ops ++ mcpdOps env.mcpd
        match wait_for_mcpd env.mcpd 0 with
        | none => (RunResult.nonterm, ops2)
        | some _ =>
            if license_exists env.regKeyAfter want then
              (RunResult.failed ⟨some "Failed to remove the license from the device."⟩,
                ops2 ++ [Op.readRegKey])
            else (RunResult.done true, ops2 ++ [Op.readRegKey])
    | (r, ops) => (r, Op.readRegKey :: ops)
  else (RunResult.done false, [Op.readRegKey])

/-- A response the negotiation loop handles and then continues past: a
transport error, a non-`F5ModuleError` parse failure, or an
`EULA_REQUIRED` round (which also updates the request's EULA field). -/
def continuesNegotiation (a : AuthorityResponse) : Prop :=
  a = AuthorityResponse.transportError ∨ a = AuthorityResponse.parseFailure ∨
    ∃ r, a = AuthorityResponse.parsed r ∧ r.state = some "EULA_REQUIRED"

/-! ## Helper lemmas -/

theorem generateAux_step_transport (responses : Nat → AuthorityResponse)
    (fuel x : Nat) (want : ModuleParameters)
    (hr : responses x = AuthorityResponse.transportError) :
    generateAux responses (fuel + 1) x want =
      { result := (generateAux responses fuel (x + 1) want).result,
        posts := license_envelope want :: (generateAux responses fuel (x + 1) want).posts } := by
  simp [generateAux, hr]

theorem generateAux_step_parseFailure (responses : Nat → AuthorityResponse)
    (fuel x : Nat) (want : ModuleParameters)
    (hr : responses x = AuthorityResponse.parseFailure) :
    generateAux responses (fuel + 1) x want =
      { result := (generateAux responses fuel (x + 1) want).result,
        posts := license_envelope want :: (generateAux responses fuel (x + 1) want).posts } := by
  simp [generateAux, hr]

theorem generateAux_step_invalidXml (responses : Nat → AuthorityResponse)
    (fuel x : Nat) (want : ModuleParameters) (m : String)
    (hr : responses x = AuthorityResponse.invalidXml m) :
    generateAux responses (fuel + 1) x want =
      { result := Except.error ⟨some (invalidXmlMsg m)⟩,
        posts := [license_envelope want] } := by
  simp [generateAux, hr]

theorem generateAux_step_eula (responses : Nat → AuthorityResponse)
    (fuel x : Nat) (want : ModuleParameters) (r : LicenseResult)
    (hr : responses x = AuthorityResponse.parsed r)
    (hs : r.state = some "EULA_REQUIRED") :
    generateAux responses (fuel + 1) x want =
      { result := (generateAux responses fuel (x + 1) (setEula want r.eula)).result,
        posts := license_envelope want ::
          (generateAux responses fuel (x + 1) (setEula want r.eula)).posts } := by
  simp [generateAux, hr, hs]

theorem generateAux_step_license (responses : Nat → AuthorityResponse)
    (fuel x : Nat) (want : ModuleParameters) (r : LicenseResult)
    (hr : responses x = AuthorityResponse.parsed r)
    (hs : r.state = some "LICENSE_RETURNED") :
    generateAux responses (fuel + 1) x want =
      { result := Except.ok (some r), posts := [license_envelope want] } := by
  simp [generateAux, hr, hs]

theorem generateAux_step_unknown (responses : Nat → AuthorityResponse)
    (fuel x : Nat) (want : ModuleParameters) (r : LicenseResult)
    (hr : responses x = AuthorityResponse.parsed r)
    (h1 : r.state ≠ some "EULA_REQUIRED")
    (h2 : r.state ≠ some "LICENSE_RETURNED")
    (h3 : r.state ≠ some "EMAIL_REQUIRED")
    (h4 : r.state ≠ some "CONTACT_INFO_REQUIRED") :
    generateAux responses (fuel + 1) x want =
      { result := Except.error ⟨r.fault_text⟩, posts := [license_envelope want] } := by
  simp [generateAux, hr, h1, h2, h3, h4]

theorem generateAux_success (responses : Nat → AuthorityResponse) :
    ∀ (fuel x : Nat) (want : ModuleParameters) (r : LicenseResult),
      (generateAux responses fuel x want).result = Except.ok (some r) →
      r.state = some "LICENSE_RETURNED" ∧ ∃ y, responses y = AuthorityResponse.parsed r := by
  intro fuel
  induction fuel with
  | zero => intro x want r h; simp [generateAux] at h
  | succ n ih =>
      intro x want r h
      cases hr : responses x with
      | transportError =>
          refine ih (x + 1) want r ?_
          rw [generateAux_step_transport responses n x want hr] at h
          simpa using h
      | invalidXml m =>
          rw [generateAux_step_invalidXml responses n x want m hr] at h
          simp at h
      | parseFailure =>
          refine ih (x + 1) want r ?_
          rw [generateAux_step_parseFailure responses n x want hr] at h
          simpa using h
      | parsed p =>
          by_cases hp1 : p.state = some "EULA_REQUIRED"
          · refine ih (x + 1) (setEula want p.eula) r ?_
            rw [generateAux_step_eula responses n x want p hr hp1] at h
            simpa using h
          · by_cases hp2 : p.state = some "LICENSE_RETURNED"
            · rw [generateAux_step_license responses n x want p hr hp2] at h
              simp at h
              obtain rfl := h
              exact ⟨hp2, x, hr⟩
            · by_cases hp3 : p.state = some "EMAIL_REQUIRED"
              · have hstep : generateAux responses (n + 1) x want =
                    { result := Except.error ⟨some "Email must be provided"⟩,
                      posts := [license_envelope want] } := by
                  simp [generateAux, hr, hp1, hp2, hp3]
                rw [hstep] at h
                simp at h
              · by_cases hp4 : p.state = some "CONTACT_INFO_REQUIRED"
                · have hstep : generateAux responses (n + 1) x want =
                      { result := Except.error ⟨some "Contact info must be provided"⟩,
                        posts := [license_envelope want] } := by
                    simp [generateAux, hr, hp1, hp2, hp3, hp4]
                  rw [hstep] at h
                  simp at h
                · rw [generateAux_step_unknown responses n x want p hr hp1 hp2 hp3 hp4] at h
                  simp at h

theorem generateAux_unknown_state (responses : Nat → AuthorityResponse) (r : LicenseResult)
    (h1 : r.state ≠ some "EULA_REQUIRED")
    (h2 : r.state ≠ some "LICENSE_RETURNED")
    (h3 : r.state ≠ some "EMAIL_REQUIRED")
    (h4 : r.state ≠ some "CONTACT_INFO_REQUIRED") :
    ∀ (k fuel x : Nat) (want : ModuleParameters), k < fuel →
      (∀ j, j < k → continuesNegotiation (responses (x + j))) →
      responses (x + k) = AuthorityResponse.parsed r →
      (generateAux responses fuel x want).result = Except.error ⟨r.fault_text⟩
      ∧ (generateAux responses fuel x want).posts.length = k + 1 := by
  intro k
  induction k with
  | zero =>
      intro fuel x want hk hpre hr
      obtain ⟨f, rfl⟩ : ∃ f, fuel = f + 1 := ⟨fuel - 1, by omega⟩
      rw [Nat.add_zero] at hr
      rw [generateAux_step_unknown responses f x want r hr h1 h2 h3 h4]
      simp
  | succ n ih =>
      intro fuel x want hk hpre hr
      obtain ⟨f, rfl⟩ : ∃ f, fuel = f + 1 := ⟨fuel - 1, by omega⟩
      have hc := hpre 0 (by omega)
      rw [Nat.add_zero] at hc
      have hpre2 : ∀ j, j < n → continuesNegotiation (responses (x + 1 + j)) := by
        intro j hj
        have := hpre (j + 1) (by omega)
        rwa [show x + (j + 1) = x + 1 + j by omega] at this
      have hr2 : responses (x + 1 + n) = AuthorityResponse.parsed r := by
        rwa [show x + 1 + n = x + (n + 1) by omega]
      rcases hc with hc | hc | ⟨p, hc, hps⟩
      · have hrec := ih f (x + 1) want (by omega) hpre2 hr2
        rw [generateAux_step_transport responses f x want hc]
        simpa using hrec
      · have hrec := ih f (x + 1) want (by omega) hpre2 hr2
        rw [generateAux_step_parseFailure responses f x want hc]
        simpa using hrec
      · have hrec := ih f (x + 1) (setEula want p.eula) (by omega) hpre2 hr2
        rw [generateAux_step_eula responses f x want p hc hps]
        simpa using hrec

theorem generateAux_all_transport (responses : Nat → AuthorityResponse)
    (h : ∀ x, responses x = AuthorityResponse.transportError) :
    ∀ (fuel x : Nat) (want : ModuleParameters),
      generateAux responses fuel x want =
        { result := Except.ok none, posts := List.replicate fuel (license_envelope want) } := by
  intro fuel
  induction fuel with
  | zero => intro x want; rfl
  | succ n ih =>
      intro x want
      simp only [generateAux, h x, ih (x + 1) want, List.replicate_succ]

theorem generateAux_posts_one_le (responses : Nat → AuthorityResponse)
    (fuel x : Nat) (want : ModuleParameters) :
    1 ≤ (generateAux responses (fuel + 1) x want).posts.length := by
  cases hr : responses x with
  | transportError => simp [generateAux, hr]
  | invalidXml m => simp [generateAux, hr]
  | parseFailure => simp [generateAux, hr]
  | parsed r =>
      simp only [generateAux, hr]
      split
      · simp
      · split
        · simp
        · split
          · simp
          · split <;> simp

theorem generateAux_invalidXml_at (responses : Nat → AuthorityResponse) (m : String) :
    ∀ (k fuel x : Nat) (want : ModuleParameters), k < fuel →
      (∀ j, j < k → continuesNegotiation (responses (x + j))) →
      responses (x + k) = AuthorityResponse.invalidXml m →
      (generateAux responses fuel x want).result = Except.error ⟨some (invalidXmlMsg m)⟩
      ∧ (generateAux responses fuel x want).posts.length = k + 1 := by
  intro k
  induction k with
  | zero =>
      intro fuel x want hk hpre hr
      obtain ⟨f, rfl⟩ : ∃ f, fuel = f + 1 := ⟨fuel - 1, by omega⟩
      rw [Nat.add_zero] at hr
      rw [generateAux_step_invalidXml responses f x want m hr]
      simp
  | succ n ih =>
      intro fuel x want hk hpre hr
      obtain ⟨f, rfl⟩ : ∃ f, fuel = f + 1 := ⟨fuel - 1, by omega⟩
      have hc := hpre 0 (by omega)
      rw [Nat.add_zero] at hc
      have hpre2 : ∀ j, j < n → continuesNegotiation (responses (x + 1 + j)) := by
        intro j hj
        have := hpre (j + 1) (by omega)
        rwa [show x + (j + 1) = x + 1 + j by omega] at this
      have hr2 : responses (x + 1 + n) = AuthorityResponse.invalidXml m := by
        rwa [show x + 1 + n = x + (n + 1) by omega]
      rcases hc with hc | hc | ⟨p, hc, hps⟩
      · have hrec := ih f (x + 1) want (by omega) hpre2 hr2
        rw [generateAux_step_transport responses f x want hc]
        simpa using hrec
      · have hrec := ih f (x + 1) want (by omega) hpre2 hr2
        rw [generateAux_step_parseFailure responses f x want hc]
        simpa using hrec
      · have hrec := ih f (x + 1) (setEula want p.eula) (by omega) hpre2 hr2
        rw [generateAux_step_eula responses f x want p hc hps]
        simpa using hrec

theorem generateAux_parseFailure_continues (responses : Nat → AuthorityResponse) :
    ∀ (k fuel x : Nat) (want : ModuleParameters), k + 1 < fuel →
      (∀ j, j < k → continuesNegotiation (responses (x + j))) →
      responses (x + k) = AuthorityResponse.parseFailure →
      k + 2 ≤ (generateAux responses fuel x want).posts.length := by
  intro k
  induction k with
  | zero =>
      intro fuel x want hk hpre hr
      obtain ⟨f, rfl⟩ : ∃ f, fuel = f + 1 + 1 := ⟨fuel - 2, by omega⟩
      rw [Nat.add_zero] at hr
      rw [generateAux_step_parseFailure responses (f + 1) x want hr]
      have hone : 1 ≤ (generateAux responses (f + 1) (x + 1) want).posts.length :=
        generateAux_posts_one_le responses f (x + 1) want
      simp only [List.length_cons]
      omega
  | succ n ih =>
      intro fuel x want hk hpre hr
      obtain ⟨f, rfl⟩ : ∃ f, fuel = f + 1 := ⟨fuel - 1, by omega⟩
      have hc := hpre 0 (by omega)
      rw [Nat.add_zero] at hc
      have hpre2 : ∀ j, j < n → continuesNegotiation (responses (x + 1 + j)) := by
        intro j hj
        have := hpre (j + 1) (by omega)
        rwa [show x + (j + 1) = x + 1 + j by omega] at this
      have hr2 : responses (x + 1 + n) = AuthorityResponse.parseFailure := by
        rwa [show x + 1 + n = x + (n + 1) by omega]
      rcases hc with hc | hc | ⟨p, hc, hps⟩
      · have hrec := ih f (x + 1) want (by omega) hpre2 hr2
        rw [generateAux_step_transport responses f x want hc]
        simp only [List.length_cons]
        omega
      · have hrec := ih f (x + 1) want (by omega) hpre2 hr2
        rw [generateAux_step_parseFailure responses f x want hc]
        simp only [List.length_cons]
        omega
      · have hrec := ih f (x + 1) (setEula want p.eula) (by omega) hpre2 hr2
        rw [generateAux_step_eula responses f x want p hc hps]
        simp only [List.length_cons]
        omega

theorem wait_for_mcpd_iff :
    ∀ (sigs : List CheckOutcome) (c n : Nat),
      wait_for_mcpd sigs c = some n ↔
        (n ≤ sigs.length ∧ 4 ≤ nopsAfter c (sigs.take n) ∧
          ∀ m, m < n → nopsAfter c (sigs.take m) < 4) := by
  intro sigs
  induction sigs with
  | nil =>
      intro c n
      simp only [wait_for_mcpd, nopsAfter, List.take_nil, List.foldl_nil, List.length_nil]
      by_cases hc : c < 4
      · simp only [if_pos hc]
        constructor
        · intro h; exact absurd h (by simp)
        · rintro ⟨hn, h4, -⟩; omega
      · simp only [if_neg hc, Option.some.injEq]
        constructor
        · rintro rfl
          exact ⟨Nat.le_refl 0, by omega, fun m hm => absurd hm (by omega)⟩
        · rintro ⟨hn, -, -⟩; omega
  | cons s rest ih =>
      intro c n
      by_cases hc : c < 4
      · simp only [wait_for_mcpd, if_pos hc]
        constructor
        · intro h
          obtain ⟨n', hn', rfl⟩ := Option.map_eq_some'.mp h
          obtain ⟨hlen, h4, hall⟩ := (ih (mcpdStep c s) n').mp hn'
          refine ⟨by simp; omega, ?_, ?_⟩
          · simpa [nopsAfter, List.take_succ_cons] using h4
          · intro m hm
            cases m with
            | zero => simpa [nopsAfter] using hc
            | succ m' =>
                have := hall m' (by omega)
                simpa [nopsAfter, List.take_succ_cons] using this
        · rintro ⟨hlen, h4, hall⟩
          cases n with
          | zero =>
              exfalso
              simp [nopsAfter] at h4
              omega
          | succ n' =>
              have hrec : wait_for_mcpd rest (mcpdStep c s) = some n' := by
                refine (ih (mcpdStep c s) n').mpr ⟨by simpa using hlen, ?_, ?_⟩
                · simpa [nopsAfter, List.take_succ_cons] using h4
                · intro m hm
                  have := hall (m + 1) (by omega)
                  simpa [nopsAfter, List.take_succ_cons] using this
              rw [hrec]
              rfl
      · simp only [wait_for_mcpd, if_neg hc, Option.some.injEq]
        constructor
        · rintro rfl
          refine ⟨Nat.zero_le _, by simpa [nopsAfter] using by omega, ?_⟩
          intro m hm; exact absurd hm (by omega)
        · rintro ⟨hlen, h4, hall⟩
          by_contra hne
          have h0 := hall 0 (by omega)
          simp [nopsAfter] at h0
          omega

theorem escapeChars_escaped (l : List Char) :
    ∀ (u v : List Char) (c : Char), escapeChars l = u ++ c :: v →
      inEscapeClass c = true → ∃ u', u = u' ++ [bslashChar] := by
  induction l with
  | nil =>
      intro u v c h hc
      exact absurd h.symm (by simp [escapeChars])
  | cons a as ih =>
      intro u v c h hc
      by_cases ha : inEscapeClass a
      · rw [escapeChars, if_pos ha] at h
        match u, h with
        | [], h =>
            simp only [List.nil_append, List.cons.injEq] at h
            obtain ⟨rfl, -⟩ := h
            exact absurd hc (by decide)
        | [x], h =>
            simp only [List.cons_append, List.nil_append, List.cons.injEq] at h
            obtain ⟨rfl, -, -⟩ := h
            exact ⟨[], rfl⟩
        | x :: y :: u'', h =>
            simp only [List.cons_append, List.cons.injEq] at h
            obtain ⟨rfl, rfl, htail⟩ := h
            obtain ⟨w, hw⟩ := ih u'' v c htail hc
            exact ⟨bslashChar :: a :: w, by simp [hw]⟩
      · rw [escapeChars, if_neg ha] at h
        match u, h with
        | [], h =>
            simp only [List.nil_append, List.cons.injEq] at h
            obtain ⟨rfl, -⟩ := h
            exact absurd hc ha
        | x :: u'', h =>
            simp only [List.cons_append, List.cons.injEq] at h
            obtain ⟨rfl, htail⟩ := h
            obtain ⟨w, hw⟩ := ih u'' v c htail hc
            exact ⟨a :: w, by simp [hw]⟩

theorem splitLines_ne_nil (l : List Char) : splitLines l ≠ [] := by
  induction l with
  | nil => simp [splitLines]
  | cons c cs ih =>
      by_cases h : c = newlineChar
      · simp [splitLines, h]
      · simp only [splitLines, if_neg h]
        cases hs : splitLines cs with
        | nil => simp
        | cons a as => simp

theorem splitLines_escapeChars (l : List Char) :
    splitLines (escapeChars l) = (splitLines l).map escapeChars := by
  induction l with
  | nil => rfl
  | cons c cs ih =>
      by_cases hcn : c = newlineChar
      · subst hcn
        have hc : inEscapeClass newlineChar = false := by decide
        rw [escapeChars, if_neg (by simp [hc]), splitLines, if_pos rfl, ih,
          splitLines, if_pos rfl]
        simp [escapeChars]
      · obtain ⟨l0, ls, hl⟩ : ∃ l0 ls, splitLines cs = l0 :: ls := by
          cases h : splitLines cs with
          | nil => exact absurd h (splitLines_ne_nil cs)
          | cons a as => exact ⟨a, as, rfl⟩
        have h1 : splitLines (escapeChars cs) = escapeChars l0 :: ls.map escapeChars := by
          rw [ih, hl]; rfl
        have h2 : splitLines (c :: escapeChars cs)
            = (c :: escapeChars l0) :: ls.map escapeChars := by
          rw [splitLines, if_neg hcn, h1]
        by_cases hc : inEscapeClass c
        · have hbn : ¬ (bslashChar = newlineChar) := by decide
          have h3 : splitLines (bslashChar :: c :: escapeChars cs)
              = (bslashChar :: c :: escapeChars l0) :: ls.map escapeChars := by
            rw [splitLines, if_neg hbn, h2]
          rw [escapeChars, if_pos hc, h3, splitLines, if_neg hcn, hl]
          simp [List.map_cons, escapeChars, hc]
        · rw [escapeChars, if_neg hc, h2, splitLines, if_neg hcn, hl]
          simp [List.map_cons, escapeChars, hc]

theorem escapeChars_eq_self (l : List Char)
    (h : ∀ c ∈ l, inEscapeClass c = false) : escapeChars l = l := by
  induction l with
  | nil => rfl
  | cons c cs ih =>
      rw [escapeChars, if_neg (by simp [h c (by simp)])]
      rw [ih (fun d hd => h d (by simp [hd]))]

theorem escapeChars_eq_clean :
    ∀ l m : List Char, (∀ c ∈ m, inEscapeClass c = false ∧ c ≠ bslashChar) →
      (escapeChars l = m ↔ l = m) := by
  intro l
  induction l with
  | nil =>
      intro m hm
      constructor
      · intro h; simpa [escapeChars] using h
      · intro h; rw [← h]; rfl
  | cons c cs ih =>
      intro m hm
      constructor
      · intro h
        by_cases hc : inEscapeClass c
        · rw [escapeChars, if_pos hc] at h
          exfalso
          have hb : bslashChar ∈ m := by rw [← h]; simp
          exact (hm bslashChar hb).2 rfl
        · rw [escapeChars, if_neg hc] at h
          match m, h with
          | d :: m', h =>
              simp only [List.cons.injEq] at h
              obtain ⟨rfl, htail⟩ := h
              rw [(ih m' (fun e he => hm e (by simp [he]))).mp htail]
      · intro h
        rw [← h]
        exact escapeChars_eq_self (c :: cs)
          (fun d hd => (hm d (h ▸ hd)).1)

theorem heredocCollision_iff (s : String) :
    heredocCollision s = true ↔ eofLine ∈ splitLines s.data := by
  rw [heredocCollision]
  rw [show ((splitLines (escapeChars s.data)).contains eofLine = true)
      ↔ eofLine ∈ splitLines (escapeChars s.data) from List.elem_iff]
  rw [splitLines_escapeChars]
  constructor
  · intro h
    obtain ⟨a, ha, hae⟩ := List.mem_map.mp h
    have : a = eofLine :=
      (escapeChars_eq_clean a eofLine (by decide)).mp hae
    rwa [← this]
  · intro h
    refine List.mem_map.mpr ⟨eofLine, h, ?_⟩
    exact escapeChars_eq_self eofLine (by decide)

/-! ## Claim theorems -/

/-- C2: running the negotiation against an authority for which every POST
raises a transport error performs exactly 10 POST attempts, the loop falls
through producing no license record, and `create_on_device` then fails
with the generation error; no device-mutating operation is performed. -/
theorem all_transport_errors_ten_posts_then_failure (want : ModuleParameters) :
    (generate_license_from_remote want (fun _ => AuthorityResponse.transportError)).result
        = Except.ok none
    ∧ (generate_license_from_remote want (fun _ => AuthorityResponse.transportError)).posts.length
        = 10
    ∧ (create_on_device want (fun _ => AuthorityResponse.transportError)).1
        = Except.error ⟨some "Failed to generate license from F5 activation servers."⟩
    ∧ ∀ op ∈ (create_on_device want (fun _ => AuthorityResponse.transportError)).2,
        isMutating op = false := by
  have hg := generateAux_all_transport (fun _ => AuthorityResponse.transportError)
    (fun _ => rfl) 10 0 want
  refine ⟨?_, ?_, ?_, ?_⟩
  · rw [generate_license_from_remote, hg]
  · rw [generate_license_from_remote, hg]; simp
  · rw [create_on_device]
    rw [generate_license_from_remote, hg]
  · intro op hop
    rw [create_on_device] at hop
    rw [generate_license_from_remote, hg] at hop
    simp only [List.mem_map] at hop
    obtain ⟨e, -, rfl⟩ := hop
    rfl

/-- C5: with `accept_eula` false and a wanted key that is not the current
registration key, `present` fails with the EULA-acceptance error and the
operation log contains no device-mutating gateway operation (the appliance
is untouched). -/
theorem ensure_present_eula_not_accepted_no_mutation
    (want : ModuleParameters) (env : DeviceEnv)
    (hkey : license_exists env.regKey want = false)
    (heula : want.accept_eula = false) :
    present want env =
        (RunResult.failed
          ⟨some "You must read and accept the product EULA to license the box."⟩,
          [Op.readRegKey])
    ∧ (present want env).2.filter isMutating = [] := by
  have hp : present want env =
      (RunResult.failed
        ⟨some "You must read and accept the product EULA to license the box."⟩,
        [Op.readRegKey]) := by
    simp [present, hkey, create, heula]
  exact ⟨hp, by rw [hp]; rfl⟩

/-- C5 witness: the default parameters have `accept_eula = false` and no
registration key matches an unset `license_key`. -/
theorem ensure_present_eula_not_accepted_witness :
    present {} {} =
        (RunResult.failed
          ⟨some "You must read and accept the product EULA to license the box."⟩,
          [Op.readRegKey])
    ∧ (present ({} : ModuleParameters) {}).2.filter isMutating = [] :=
  ensure_present_eula_not_accepted_no_mutation {} {} rfl rfl

/-- C6: `absent` against a device with no registration key reports
`changed = false` after the single registration-key read, performing no
write, removal or reload. -/
theorem ensure_absent_no_registration_unchanged
    (want : ModuleParameters) (env : DeviceEnv) (h : env.regKey = none) :
    absent want env = (RunResult.done false, [Op.readRegKey])
    ∧ (absent want env).2.filter isMutating = [] := by
  have ha : absent want env = (RunResult.done false, [Op.readRegKey]) := by
    simp [absent, any_license_exists, h]
  exact ⟨ha, by rw [ha]; rfl⟩

/-- C6 witness: the default environment has no registration key. -/
theorem ensure_absent_no_registration_witness :
    absent {} {} = (RunResult.done false, [Op.readRegKey])
    ∧ (absent ({} : ModuleParameters) {}).2.filter isMutating = [] :=
  ensure_absent_no_registration_unchanged {} {} rfl

/-- C9: during removal, a `UtilError` whose message contains
`No such file or directory` is treated as success for either file and the
sequence proceeds to the reload; a `UtilError` with any other message
aborts immediately with a fatal `F5ModuleError` carrying that message, and
nothing after the failing removal runs. -/
theorem removal_idempotent_delete_policy :
    (∀ mL mE : String,
        occursIn notFoundText.data mL.data = true →
        occursIn notFoundText.data mE.data = true →
        remove_from_device (RmOutcome.utilError mL) (RmOutcome.utilError mE)
          = (Except.ok (), [Op.removeLicenseFile, Op.removeEulaFile, Op.reloadLicense]))
    ∧ (∀ (m : String) (rmE : RmOutcome),
        occursIn notFoundText.data m.data = false →
        remove_from_device (RmOutcome.utilError m) rmE
          = (Except.error ⟨some m⟩, [Op.removeLicenseFile]))
    ∧ (∀ m : String,
        occursIn notFoundText.data m.data = false →
        remove_from_device RmOutcome.ok (RmOutcome.utilError m)
          = (Except.error ⟨some m⟩, [Op.removeLicenseFile, Op.removeEulaFile])) := by
  refine ⟨?_, ?_, ?_⟩ <;> intros <;>
    simp [remove_from_device, remove_license_from_device, remove_eula_from_device, *]

/-- C1 counterexample: an authority whose first response (attempt 0, well
before the last attempt) is not well-formed markup.  The claim says the
loop continues to the next attempt; the code instead aborts at once: the
result is the fatal invalid-XML error after a single POST, so no second
attempt is ever made. -/
theorem malformed_response_not_transient_counterexample :
    (generate_license_from_remote {}
        (fun _ => AuthorityResponse.invalidXml "syntax error")).result
      = Except.error ⟨some (invalidXmlMsg "syntax error")⟩
    ∧ (generate_license_from_remote {}
        (fun _ => AuthorityResponse.invalidXml "syntax error")).posts.length = 1
    ∧ ¬ 2 ≤ (generate_license_from_remote {}
        (fun _ => AuthorityResponse.invalidXml "syntax error")).posts.length :=
  ⟨rfl, rfl, by decide⟩

/-- C1 (amended): a response whose payload is not well-formed structured
markup is fatal, not transient, on every attempt: when attempt `k` (after
any sequence of transiently handled attempts) observes the malformed
payload, the negotiation aborts right there with the invalid-XML
`F5ModuleError`, having made only the `k + 1` posts up to and including
it; only the other (non-`F5ModuleError`) parse failures are transient and,
at any attempt with attempts remaining, make the loop continue to a
further POST. -/
theorem malformed_response_aborts_negotiation
    (want : ModuleParameters) (responses : Nat → AuthorityResponse)
    (k : Nat) (m : String)
    (hk : k < 10)
    (hpre : ∀ j, j < k → continuesNegotiation (responses j))
    (h0 : responses k = AuthorityResponse.invalidXml m) :
    (generate_license_from_remote want responses).result
        = Except.error ⟨some (invalidXmlMsg m)⟩
    ∧ (generate_license_from_remote want responses).posts.length = k + 1
    ∧ ∀ (want2 : ModuleParameters) (responses2 : Nat → AuthorityResponse) (k2 : Nat),
        k2 + 1 < 10 →
        (∀ j, j < k2 → continuesNegotiation (responses2 j)) →
        responses2 k2 = AuthorityResponse.parseFailure →
        k2 + 2 ≤ (generate_license_from_remote want2 responses2).posts.length := by
  have hmain := generateAux_invalidXml_at responses m k 10 0 want hk
    (by simpa using hpre) (by simpa using h0)
  refine ⟨hmain.1, hmain.2, ?_⟩
  intro want2 responses2 k2 hk2 hpre2 hpf
  exact generateAux_parseFailure_continues responses2 k2 10 0 want2 hk2
    (by simpa using hpre2) (by simpa using hpf)

/-- C1 witness: a transport error on attempt 0 followed by a malformed
payload on attempt 1 aborts with the invalid-XML error. -/
theorem malformed_response_aborts_witness :
    (generate_license_from_remote {}
        (fun n => match n with
          | 0 => AuthorityResponse.transportError
          | _ => AuthorityResponse.invalidXml "no element found")).result
      = Except.error ⟨some (invalidXmlMsg "no element found")⟩ :=
  (malformed_response_aborts_negotiation {} _ 1 "no element found" (by omega)
    (fun j hj => by
      have hj0 : j = 0 := by omega
      subst hj0
      exact Or.inl rfl) rfl).1

/-- C3: against an authority answering `EULA_REQUIRED` with an EULA text
first and `LICENSE_RETURNED` second, negotiation succeeds with the second
record after exactly 2 POSTs, and the second request's envelope embeds
exactly the EULA text returned by the first response (inside the `eula`
element of the template). -/
theorem eula_round_trip_two_posts_embeds_eula
    (want : ModuleParameters) (responses : Nat → AuthorityResponse)
    (r1 r2 : LicenseResult) (t : String)
    (h0 : responses 0 = AuthorityResponse.parsed r1)
    (h1 : r1.state = some "EULA_REQUIRED")
    (he : r1.eula = some t)
    (h2 : responses 1 = AuthorityResponse.parsed r2)
    (h3 : r2.state = some "LICENSE_RETURNED") :
    (generate_license_from_remote want responses).result = Except.ok (some r2)
    ∧ (generate_license_from_remote want responses).posts =
        [license_envelope want, license_envelope (setEula want (some t))]
    ∧ ∃ u v, license_envelope (setEula want (some t)) =
        u ++ (eulaOpenTag ++ t ++ eulaCloseTag) ++ v := by
  have hstep : generate_license_from_remote want responses =
      { result := Except.ok (some r2),
        posts := [license_envelope want, license_envelope (setEula want (some t))] } := by
    show generateAux responses (8 + 1 + 1) 0 want = _
    rw [generateAux_step_eula responses (8 + 1) 0 want r1 h0 h1, he,
      generateAux_step_license responses 8 (0 + 1) (setEula want (some t)) r2
        (by simpa using h2) h3]
  refine ⟨by rw [hstep], by rw [hstep], ?_⟩
  refine ⟨envA ++ (setEula want (some t)).license_server ++ envB ++
    strOfPy (setEula want (some t)).dossier ++ envC,
    envD ++ orEmpty (setEula want (some t)).email ++ envE ++
    orEmpty (setEula want (some t)).first_name ++ envF ++
    orEmpty (setEula want (some t)).last_name ++ envG ++
    orEmpty (setEula want (some t)).company ++ envH ++
    orEmpty (setEula want (some t)).phone ++ envI ++
    orEmpty (setEula want (some t)).job_title ++ envJ ++
    orEmpty (setEula want (some t)).address ++ envK ++
    orEmpty (setEula want (some t)).city ++ envL ++
    orEmpty (setEula want (some t)).state ++ envM ++
    orEmpty (setEula want (some t)).postal_code ++ envN ++
    orEmpty (setEula want (some t)).country ++ envO, ?_⟩
  have horE : orEmpty (setEula want (some t)).eula = t := rfl
  simp only [license_envelope, horE, String.append_assoc]

/-- C3 witness: a concrete EULA-then-license exchange returns the second
record. -/
theorem eula_round_trip_witness :
    (generate_license_from_remote {}
        (fun n => match n with
          | 0 => AuthorityResponse.parsed
              ⟨some "EULA TEXT", none, some "EULA_REQUIRED", none, none⟩
          | _ => AuthorityResponse.parsed
              ⟨some "EULA TEXT", some "LICENSE DATA", some "LICENSE_RETURNED", none, none⟩)).result
      = Except.ok (some ⟨some "EULA TEXT", some "LICENSE DATA", some "LICENSE_RETURNED", none, none⟩) :=
  (eula_round_trip_two_posts_embeds_eula {} _
    ⟨some "EULA TEXT", none, some "EULA_REQUIRED", none, none⟩
    ⟨some "EULA TEXT", some "LICENSE DATA", some "LICENSE_RETURNED", none, none⟩
    "EULA TEXT" rfl rfl rfl rfl rfl).1

/-- C7: whenever the negotiation loop returns a license record, that
record came from a response whose transaction state was
`LICENSE_RETURNED`; no other outcome can end the loop successfully. -/
theorem negotiation_success_requires_license_returned
    (want : ModuleParameters) (responses : Nat → AuthorityResponse) (r : LicenseResult)
    (h : (generate_license_from_remote want responses).result = Except.ok (some r)) :
    r.state = some "LICENSE_RETURNED" ∧ ∃ y, responses y = AuthorityResponse.parsed r :=
  generateAux_success responses 10 0 want r h

/-- C7 witness: a concrete successful negotiation, with its record's state
checked to be `LICENSE_RETURNED`. -/
theorem negotiation_success_witness :
    (⟨none, some "LIC", some "LICENSE_RETURNED", none, none⟩ : LicenseResult).state
        = some "LICENSE_RETURNED"
    ∧ ∃ y, (fun _ : Nat => AuthorityResponse.parsed
          ⟨none, some "LIC", some "LICENSE_RETURNED", none, none⟩) y
        = AuthorityResponse.parsed ⟨none, some "LIC", some "LICENSE_RETURNED", none, none⟩ :=
  negotiation_success_requires_license_returned {} _ _ rfl

/-- C10: a well-formed response whose parsed transaction state is absent
or none of the four recognised states makes the negotiation abort right
there, with an `F5ModuleError` carrying the parsed fault text (possibly
absent), after exactly the posts up to and including that response. -/
theorem unknown_state_aborts_with_fault_text
    (want : ModuleParameters) (responses : Nat → AuthorityResponse)
    (k : Nat) (r : LicenseResult)
    (hk : k < 10)
    (hpre : ∀ j, j < k → continuesNegotiation (responses j))
    (hr : responses k = AuthorityResponse.parsed r)
    (h1 : r.state ≠ some "EULA_REQUIRED")
    (h2 : r.state ≠ some "LICENSE_RETURNED")
    (h3 : r.state ≠ some "EMAIL_REQUIRED")
    (h4 : r.state ≠ some "CONTACT_INFO_REQUIRED") :
    (generate_license_from_remote want responses).result = Except.error ⟨r.fault_text⟩
    ∧ (generate_license_from_remote want responses).posts.length = k + 1 :=
  generateAux_unknown_state responses r h1 h2 h3 h4 k 10 0 want hk
    (by simpa using hpre) (by simpa using hr)

/-- C10 witness: a parsed response with no transaction state and no fault
text aborts at once with `F5ModuleError(None)` after one POST. -/
theorem unknown_state_aborts_witness :
    (generate_license_from_remote {}
        (fun _ => AuthorityResponse.parsed ⟨none, none, none, none, none⟩)).result
      = Except.error ⟨none⟩ :=
  (unknown_state_aborts_with_fault_text {} _ 0 ⟨none, none, none, none, none⟩
    (by omega) (fun j hj => absurd hj (by omega)) rfl
    (by simp) (by simp) (by simp) (by simp)).1

/-- C4: on the readiness sequence [fail, ok, ok, fail, ok, ok, ok, ok]
the stability loop performs exactly 8 checks and terminates; in general,
a negative signal — and a probe error, which `_is_mcpd_ready_on_device`
turns into a negative signal — resets the consecutive-success counter to
zero, and the loop terminates after exactly `n` checks iff the counter
first reaches the threshold 4 at check `n`. -/
theorem mcpd_stability_loop_spec :
    (wait_for_mcpd
        [CheckOutcome.result false, CheckOutcome.result true, CheckOutcome.result true,
         CheckOutcome.result false, CheckOutcome.result true, CheckOutcome.result true,
         CheckOutcome.result true, CheckOutcome.result true] 0 = some 8)
    ∧ (∀ (nops : Nat) (c : CheckOutcome),
        is_mcpd_ready_on_device c = false → mcpdStep nops c = 0)
    ∧ (∀ nops : Nat, mcpdStep nops CheckOutcome.raised = 0)
    ∧ (∀ (sigs : List CheckOutcome) (n : Nat),
        wait_for_mcpd sigs 0 = some n ↔
          (n ≤ sigs.length ∧ 4 ≤ nopsAfter 0 (sigs.take n) ∧
            ∀ m, m < n → nopsAfter 0 (sigs.take m) < 4)) :=
  ⟨by decide, fun nops c h => by simp [mcpdStep, h], fun nops => rfl,
    fun sigs n => wait_for_mcpd_iff sigs 0 n⟩

/-- C8 counterexample: the license text `"$` + newline + `EOF` contains a
double quote and a dollar sign, yet the heredoc-write command built for it
collides with the heredoc terminator: the escaped payload still contains
the line `EOF`, which the escaping (covering only `$`, `"`, `'`) cannot
touch — contradicting the claim that no unescaped collision occurs. -/
theorem heredoc_collision_counterexample :
    (dquoteChar ∈ ("\"$\nEOF").data ∧ dollarChar ∈ ("\"$\nEOF").data)
    ∧ heredocCollision "\"$\nEOF" = true
    ∧ ∃ u v, upload_license_command "\"$\nEOF"
        = u ++ re_sub_escape "\"$\nEOF" ++ v :=
  ⟨by decide, by decide,
    ⟨"-c \"" ++ "cat > /config/bigip.license <<EOF\n", "\nEOF" ++ "\"",
      by simp only [upload_license_command, String.append_assoc]⟩⟩

/-- C8 (amended): for every license text containing a double quote and a
dollar sign, the heredoc-write command embeds the escaped payload, in
which every occurrence of `$`, `"` or `'` is immediately preceded by a
backslash; but the escaping does not protect the heredoc terminator: the
command collides with the terminator exactly when the license text itself
contains a line equal to `EOF`. -/
theorem heredoc_escaping_spec (s : String)
    (hq : dquoteChar ∈ s.data) (hd : dollarChar ∈ s.data) :
    (∃ u v, upload_license_command s = u ++ re_sub_escape s ++ v)
    ∧ (∀ (u v : List Char) (c : Char),
        (re_sub_escape s).data = u ++ c :: v → inEscapeClass c = true →
        ∃ u', u = u' ++ [bslashChar])
    ∧ (heredocCollision s = true ↔ eofLine ∈ splitLines s.data) := by
  refine ⟨⟨"-c \"" ++ "cat > /config/bigip.license <<EOF\n", "\nEOF" ++ "\"",
    by simp only [upload_license_command, String.append_assoc]⟩, ?_, heredocCollision_iff s⟩
  intro u v c h hc
  exact escapeChars_escaped s.data u v c h hc

/-- C8 witness: the escaping properties evaluated at the concrete license
text `"$x`, which triggers both escape classes and has no `EOF` line. -/
theorem heredoc_escaping_witness :
    (∃ u v, upload_license_command "\"$x" = u ++ re_sub_escape "\"$x" ++ v)
    ∧ (∀ (u v : List Char) (c : Char),
        (re_sub_escape "\"$x").data = u ++ c :: v → inEscapeClass c = true →
        ∃ u', u = u' ++ [bslashChar])
    ∧ (heredocCollision "\"$x" = true ↔ eofLine ∈ splitLines ("\"$x").data) :=
  heredoc_escaping_spec "\"$x" (by decide) (by decide)

end BigipDeviceLicense
